import Mathlib

/-!
Shallow embedding of `src/hugo/internal/tools/link_checker/check.py`, the
link resolution and classification engine of the `rules_hugo` repository.

The embedding follows the Python source function by function:
strings stay Lean `String`s, filesystem paths are lists of components of an
absolute POSIX path (the component list after the root `/`), the filesystem
and the HTTP client are explicit collaborator values, and every Python
exception path that the source catches is modelled by an explicit
`Except`/error value.  The HTML tree produced by BeautifulSoup is modelled
by a small `Node` inductive supporting exactly the queries the source uses
(`find_all`, attribute lookup, `get_text`, `str(tag)`).
-/

/-! ## Python string primitives used by the source -/

/-- Python `str.strip()` on the whitespace the checker meets (models
`tag['href'].strip()` and `.strip()` in the anchor matcher). -/
def pyStrip (s : String) : String :=
  String.mk (((s.toList.dropWhile Char.isWhitespace).reverse.dropWhile
    Char.isWhitespace).reverse)

/-- Python `str.lower()` (ASCII case folding, which is all the checker
meets). -/
def pyLower (s : String) : String := String.mk (s.toList.map Char.toLower)

/-- Python `s.startswith(pre)`. -/
def pyStartsWith (s pre : String) : Bool := pre.toList.isPrefixOf s.toList

/-- Python `s[1:]`: drop the first character. -/
def pyDropOne (s : String) : String := String.mk (s.toList.drop 1)

/-- Split a character list at every separator character (Python
`str.split(sep)` semantics: `""` yields `[""]`, separators at the ends
yield empty fields). -/
def splitOnPred (p : Char → Bool) : List Char → List (List Char)
  | [] => [[]]
  | c :: t =>
    let r := splitOnPred p t
    if p c then [] :: r else (c :: r.headD []) :: r.tail

/-- Python `content.split('\n')`. -/
def pySplitNl (s : String) : List String :=
  (splitOnPred (fun c => c = '\n') s.toList).map String.mk

/-- Python `str.split()` with no argument: split on runs of whitespace,
dropping empty tokens (used for the partial line match in
`_find_line_number`). -/
def pySplitWs (s : String) : List String :=
  ((splitOnPred Char.isWhitespace s.toList).map String.mk).filter (fun t => t != "")

/-- Python substring containment `needle in hay` on character lists. -/
def subOf (needle : List Char) : List Char → Bool
  | [] => needle.isEmpty
  | c :: t => needle.isPrefixOf (c :: t) || subOf needle t

/-- Python `needle in hay` on strings. -/
def pyIn (needle hay : String) : Bool := subOf needle.toList hay.toList

/-- Python `str.replace(' ', '-')`: every space character becomes a hyphen
(the normalization used on heading text in `_check_anchor_link`). -/
def dashify (s : String) : String :=
  String.mk (s.toList.map (fun c => if c = ' ' then '-' else c))

/-- Hex digit value, for percent decoding. -/
def hexVal? (c : Char) : Option Nat :=
  if '0' ≤ c ∧ c ≤ '9' then some (c.toNat - '0'.toNat)
  else if 'a' ≤ c ∧ c ≤ 'f' then some (c.toNat - 'a'.toNat + 10)
  else if 'A' ≤ c ∧ c ≤ 'F' then some (c.toNat - 'A'.toNat + 10)
  else none

/-- Character-level body of `urllib.parse.unquote`: a `%` followed by two
hex digits decodes to that code point, anything else is kept verbatim
(matches Python on the ASCII range the checker deals with). -/
def unquoteChars : List Char → List Char
  | [] => []
  | '%' :: a :: b :: rest =>
    match hexVal? a, hexVal? b with
    | some ha, some hb => Char.ofNat (16 * ha + hb) :: unquoteChars rest
    | _, _ => '%' :: unquoteChars (a :: b :: rest)
  | c :: rest => c :: unquoteChars rest

/-- Python `urllib.parse.unquote` as used on anchor names. -/
def pyUnquote (s : String) : String := String.mk (unquoteChars s.toList)

/-! ## URL scheme extraction (`urllib.parse.urlparse(url).scheme`) -/

/-- Characters allowed in a URL scheme after the first letter. -/
def isSchemeChar (c : Char) : Bool :=
  c.isAlpha || c.isDigit || c = '+' || c = '-' || c = '.'

/-- The scheme-splitting step of `urllib.parse.urlsplit`: when the text
before the first `:` is a wellformed scheme (nonempty, starts with a
letter, scheme characters only), return the lowercased scheme and the text
after the colon; otherwise the scheme is `""` and the url is untouched. -/
def urlSchemeSplit (url : String) : String × String :=
  let cs := url.toList
  match cs.findIdx? (fun c => c = ':') with
  | none => ("", url)
  | some i =>
    if i = 0 then ("", url)
    else
      let before := cs.take i
      if (before.headD ' ').isAlpha && before.all isSchemeChar then
        (String.mk (before.map Char.toLower), String.mk (cs.drop (i + 1)))
      else ("", url)

/-- The `scheme` field of `urllib.parse.urlparse(url)`. -/
def urlScheme (url : String) : String := (urlSchemeSplit url).1

/-- The exception path of `urllib.parse.urlparse`: when the text after the
scheme begins with `//`, the netloc runs to the first `/`, `?` or `#`
(`_splitnetloc`), and a square bracket unbalanced there makes `urlsplit`
raise `ValueError("Invalid IPv6 URL")` — the exception that
`_check_link`'s handler turns into an `Error parsing link` issue. -/
def urlparse_raises (url : String) : Bool :=
  let rest := (urlSchemeSplit url).2
  if pyStartsWith rest "//" then
    let netloc := (rest.toList.drop 2).takeWhile
      (fun c => !(c = '/' || c = '?' || c = '#'))
    (netloc.contains '[' && !(netloc.contains ']'))
      || (netloc.contains ']' && !(netloc.contains '['))
  else false

/-! ## `pathlib` path arithmetic

A path is the list of components of an absolute POSIX path.  `urlParts`
is `PurePosixPath` construction (empty and `.` components dropped),
`pyJoin` is the `/` operator (an absolute right operand discards the left
operand), and `pyResolve` is the lexical `..`-elimination performed by
`Path.resolve()` on a symlink-free tree. -/

def urlParts (url : String) : List String :=
  ((splitOnPred (fun c => c = '/') url.toList).map String.mk).filter
    (fun s => s != "" && s != ".")

def pyJoin (dir : List String) (url : String) : List String :=
  if pyStartsWith url "/" then urlParts url else dir ++ urlParts url

def pyResolve (parts : List String) : List String :=
  parts.foldl (fun acc c => if c = ".." then acc.dropLast else acc ++ [c]) []

/-- `(current_dir / url).resolve()` from `_check_internal_link`. -/
def resolveTarget (dir : List String) (url : String) : List String :=
  pyResolve (pyJoin dir url)

/-- `Path.name`: the final component (`""` for the root). -/
def pathName (p : List String) : String := p.getLast?.getD ""

/-- `Path.suffix`: the extension of the final component; `""` when the last
dot is absent, leading, or trailing. -/
def pySuffix (name : String) : String :=
  let r := name.toList.reverse
  match r.findIdx? (fun c => c = '.') with
  | none => ""
  | some k =>
    if 1 ≤ k ∧ k + 1 < r.length then String.mk ((r.take (k + 1)).reverse) else ""

/-- `Path.with_suffix(suffix)` on the final component's name. -/
def pyWithSuffix (name : String) (suffix : String) : String :=
  (name.dropRight (pySuffix name).length) ++ suffix

/-! ## Filesystem collaborator -/

/-- The filesystem the checker consults: which absolute paths are regular
files, which are directories, and which raise an OS error when statted
during resolution (the exception path caught in `_check_internal_link`). -/
structure FS where
  files : List (List String)
  dirs : List (List String)
  err_paths : List (List String)
deriving DecidableEq

def FS.is_dir (fs : FS) (p : List String) : Bool := fs.dirs.contains p

def FS.path_exists (fs : FS) (p : List String) : Bool :=
  fs.files.contains p || fs.dirs.contains p

def FS.raises (fs : FS) (p : List String) : Bool := fs.err_paths.contains p

/-! ## BeautifulSoup document model

`Node` models the parsed tree: elements with a tag name, an attribute
list (first binding wins, like the `html.parser` duplicate-attribute
rule) and children, plus text nodes.  A parsed document (`soup`) is the
list of top-level nodes. -/

inductive Node where
  | elem (tag : String) (attrs : List (String × String)) (children : List Node)
  | text (s : String)

/-- Attribute lookup `tag.get(key)` / `tag[key]`. -/
def Node.attr? : Node → String → Option String
  | .elem _ attrs _, key => ((attrs.find? (fun kv => kv.1 == key)).map (fun kv => kv.2))
  | .text _, _ => none

/-- The tag name of an element node. -/
def Node.tagName : Node → Option String
  | .elem t _ _ => some t
  | .text _ => none

mutual
/-- Document-order (pre-order) enumeration of the element nodes below and
including a node: the order in which `soup.find_all` yields matches. -/
def Node.preorder : Node → List Node
  | .text _ => []
  | .elem t a cs => .elem t a cs :: preorderList cs

/-- Document-order enumeration of the element nodes of a forest. -/
def preorderList : List Node → List Node
  | [] => []
  | n :: ns => n.preorder ++ preorderList ns
end

mutual
/-- `tag.get_text()`: concatenation of all text descendants in order. -/
def getText : Node → String
  | .text s => s
  | .elem _ _ cs => getTextList cs

/-- `get_text` over a forest. -/
def getTextList : List Node → String
  | [] => ""
  | n :: ns => getText n ++ getTextList ns
end

/-- Serialization of an attribute list, for `str(tag)`. -/
def attrsString (attrs : List (String × String)) : String :=
  attrs.foldl (fun acc kv => acc ++ " " ++ kv.1 ++ "=\"" ++ kv.2 ++ "\"") ""

mutual
/-- `str(tag)`: the markup serialization of a node. -/
def strTag : Node → String
  | .text s => s
  | .elem t attrs cs =>
      "<" ++ t ++ attrsString attrs ++ ">" ++ strTagList cs ++ "</" ++ t ++ ">"

/-- `str` over a forest of children. -/
def strTagList : List Node → String
  | [] => ""
  | n :: ns => strTag n ++ strTagList ns
end

/-- The `soup.find_all('a', href=True)` match predicate: an `a` element
carrying an `href` attribute (even an empty one). -/
def isAHrefTag : Node → Bool
  | .elem t attrs _ => t == "a" && ((attrs.find? (fun kv => kv.1 == "href")).isSome)
  | .text _ => false

/-! ## Issue record and checker state -/

/-- `LinkIssue`: one detected problem, exactly the dataclass of the source. -/
structure LinkIssue where
  file_path : String
  line_number : Nat
  link_type : String
  url : String
  issue : String
  context : String
deriving DecidableEq

/-- Outcome of `requests.head(url, ...)`: a status line, or one of the
exception classes caught in `_check_external_link`. -/
inductive ProbeResult where
  | status (code : Nat) (reason : String)
  | timeout
  | connError
  | reqError (detail : String)

/-- Configuration of one `LinkChecker` run: the constructor arguments
`check_external` and `timeout`, the `base_url` field written by
`_detect_base_url`, and the HTTP collaborator behind `requests.head`. -/
structure Config where
  check_external : Bool
  timeout : Nat
  base_url : String
  http_head : String → ProbeResult

/-- Mutable checker state: the issue list, the `visited_external` set, and
an instrumentation log recording each actual invocation of the network
probe (one entry per `requests.head` call, in order). -/
structure CheckState where
  issues : List LinkIssue
  visited_external : List String
  probe_log : List String

def initState : CheckState := ⟨[], [], []⟩

def addIssue (st : CheckState) (i : LinkIssue) : CheckState :=
  { st with issues := st.issues ++ [i] }

/-- One HTML document of the site: its path relative to the site root
(`str(file_path.relative_to(site_dir))`), the component list of its parent
directory, and the outcome of reading and parsing it (`Except.error e`
models the exception caught in `_check_file`). -/
structure DocFile where
  rel_path : String
  dir : List String
  content : Except String (List Node × String)

/-! ## Link extraction (`_extract_links`, `_find_line_number`) -/

/-- Index of the first list element satisfying `p` (the enumerate loops of
`_find_line_number` return this index plus one). -/
def firstIdx (p : String → Bool) : List String → Option Nat
  | [] => none
  | l :: ls => if p l then some 0 else (firstIdx p ls).map (fun i => i + 1)

/-- The partial-match test of `_find_line_number`: at least
`len(tag_parts) // 2` (integer floor division) of the tag's whitespace
tokens occur in the line as substrings. -/
def halfTokensMatch (tagStr line : String) : Bool :=
  let tag_parts := pySplitWs tagStr
  decide (tag_parts.length / 2 ≤ (tag_parts.filter (fun part => pyIn part line)).length)

/-- `_find_line_number`: first 1-indexed line of `content` containing the
serialized tag as a substring; else the first line passing
`halfTokensMatch`; else line 1. -/
def find_line_number (tagStr : String) (content : String) : Nat :=
  let lines := pySplitNl content
  match firstIdx (fun l => pyIn tagStr l) lines with
  | some i => i + 1
  | none =>
    match firstIdx (halfTokensMatch tagStr) lines with
    | some i => i + 1
    | none => 1

/-- The `context` field: `str(tag)` truncated to 100 characters with a
trailing `...` marker when longer. -/
def tagContext (s : String) : String :=
  if 100 < s.length then String.mk (s.toList.take 100) ++ "..." else s

/-- `_extract_links`: document-order `a`-tags with an `href` attribute,
keeping the stripped `href` when it is neither empty nor a `#` anchor,
paired with the best-effort line number and truncated context. -/
def extract_links (soup : List Node) (content : String) : List (String × Nat × String) :=
  ((preorderList soup).filter isAHrefTag).filterMap (fun tag =>
    let href := pyStrip ((tag.attr? "href").getD "")
    if href == "" || pyStartsWith href "#" then none
    else
      let ts := strTag tag
      some (href, find_line_number ts content, tagContext ts))

/-! ## Internal resolver (`_check_internal_link`) -/

/-- The candidate target path of an internal reference: the reference
resolved against the referencing directory, with the default index
document appended when the result is a directory (steps 1 and 2 of
`_check_internal_link`). -/
def candidate (fs : FS) (dir : List String) (url : String) : List String :=
  let t0 := resolveTarget dir url
  if fs.is_dir t0 then t0 ++ ["index.html"] else t0

/-- The body of `_check_internal_link` up to its exception handler: resolve
the reference against the referencing directory, append `index.html` to a
directory, then test existence with the extension-less `.html` fallback.
`Except.error` models an exception raised inside the `try` block (an OS
error while statting an `err_paths` entry, or the `ValueError` that
`with_suffix` raises on an empty name). -/
def check_internal_core (fs : FS) (dir : List String) (url : String) :
    Except String (Option String) :=
  if fs.raises (resolveTarget dir url) then .error "OS error" else
  let t := candidate fs dir url
  if !(fs.path_exists t) then .ok (some "Target file not found")
  else if pySuffix (pathName t) == "" then
    if pathName t == "" then .error "ValueError: empty name"
    else
      let htmlPath := t.dropLast ++ [pyWithSuffix (pathName t) ".html"]
      if fs.path_exists htmlPath then .ok none
      else .ok (some "Target file not found (tried .html extension)")
  else .ok none

/-- `_check_internal_link` as the issue message it records, if any: the
`except` handler degrades an exception to an `Error resolving internal
link` message. -/
def check_internal_link (fs : FS) (dir : List String) (url : String) : Option String :=
  match check_internal_core fs dir url with
  | .error e => some ("Error resolving internal link: " ++ e)
  | .ok r => r

/-! ## Anchor resolver (`_check_anchor_link`) -/

/-- Heading tag names matched by the regex class `^h[1-6]$`. -/
def headingTag (t : String) : Bool :=
  t == "h1" || t == "h2" || t == "h3" || t == "h4" || t == "h5" || t == "h6"

/-- `soup.find(id=anchor)` as a Bool: some element's `id` equals the anchor. -/
def findByIdB (soup : List Node) (anchor : String) : Bool :=
  (preorderList soup).any (fun n => n.attr? "id" == some anchor)

/-- `soup.find('a', {'name': anchor})` as a Bool. -/
def findANameB (soup : List Node) (anchor : String) : Bool :=
  (preorderList soup).any (fun n =>
    n.tagName == some "a" && n.attr? "name" == some anchor)

/-- The heading fallback: some `h1`–`h6` element whose
`get_text().strip().lower().replace(' ', '-')` equals the percent-decoded
anchor's `.lower().replace(' ', '-')`. -/
def findHeadingB (soup : List Node) (anchor : String) : Bool :=
  let decoded := pyUnquote anchor
  (preorderList soup).any (fun n =>
    (match n.tagName with | some t => headingTag t | none => false) &&
    dashify (pyLower (pyStrip (getText n))) == dashify (pyLower decoded))

/-- The `found` flag of `_check_anchor_link`: id match, else `a[name]`
match, else heading match. -/
def check_anchor_found (soup : List Node) (anchor : String) : Bool :=
  findByIdB soup anchor || findANameB soup anchor || findHeadingB soup anchor

/-- `_check_anchor_link`: re-read and re-parse the page (a failure is the
caught exception path), strip the leading `#`, and record an issue when no
strategy matches. -/
def check_anchor_link (d : DocFile) (st : CheckState) (url : String)
    (line : Nat) (ctx : String) : CheckState :=
  match d.content with
  | .error e =>
      addIssue st ⟨d.rel_path, line, "anchor", url, "Error checking anchor: " ++ e, ctx⟩
  | .ok (soup, _) =>
      let anchor := pyDropOne url
      if check_anchor_found soup anchor then st
      else addIssue st ⟨d.rel_path, line, "anchor", url, "Anchor not found on page", ctx⟩

/-! ## External resolver (`_check_external_link`) -/

/-- `_check_external_link`: skip an already-visited URL; otherwise add it
to the visited set, probe it (logged), and classify the outcome. -/
def check_external_link (cfg : Config) (rel_path : String) (st : CheckState)
    (url : String) (line : Nat) (ctx : String) : CheckState :=
  if st.visited_external.contains url then st
  else
    let st1 : CheckState :=
      { st with visited_external := url :: st.visited_external,
                probe_log := st.probe_log ++ [url] }
    match cfg.http_head url with
    | .status code reason =>
        if 400 ≤ code then
          addIssue st1 ⟨rel_path, line, "external", url,
            "HTTP " ++ toString code ++ ": " ++ reason, ctx⟩
        else st1
    | .timeout =>
        addIssue st1 ⟨rel_path, line, "external", url,
          "Request timeout after " ++ toString cfg.timeout ++ " seconds", ctx⟩
    | .connError =>
        addIssue st1 ⟨rel_path, line, "external", url, "Connection error", ctx⟩
    | .reqError detail =>
        addIssue st1 ⟨rel_path, line, "external", url,
          "Request error: " ++ detail, ctx⟩

/-! ## Classifier and traversal (`_check_link`, `_check_file`, `check_site`) -/

/-- `_check_link`: parse the URL (a `ValueError` from `urlparse` is caught
by the surrounding handler and recorded as one `internal` issue
`Error parsing link: ...`), classify by scheme and dispatch to the
external, anchor or internal resolver; other schemes are ignored. -/
def check_link (cfg : Config) (fs : FS) (d : DocFile) (st : CheckState)
    (ref : String × Nat × String) : CheckState :=
  let url := ref.1
  let line := ref.2.1
  let ctx := ref.2.2
  if urlparse_raises url then
    addIssue st ⟨d.rel_path, line, "internal", url,
      "Error parsing link: Invalid IPv6 URL", ctx⟩
  else
  let scheme := urlScheme url
  if scheme = "http" ∨ scheme = "https" then
    if cfg.check_external then check_external_link cfg d.rel_path st url line ctx
    else st
  else if scheme = "" then
    if pyStartsWith url "#" then check_anchor_link d st url line ctx
    else
      match check_internal_link fs d.dir url with
      | none => st
      | some msg => addIssue st ⟨d.rel_path, line, "internal", url, msg, ctx⟩
  else st

/-- `_check_file`: a read/parse failure degrades to a single `file` issue;
otherwise every extracted reference is checked in order. -/
def check_file (cfg : Config) (fs : FS) (st : CheckState) (d : DocFile) : CheckState :=
  match d.content with
  | .error e =>
      addIssue st ⟨d.rel_path, 1, "file", "", "Error reading file: " ++ e, ""⟩
  | .ok (soup, raw) => (extract_links soup raw).foldl (check_link cfg fs d) st

/-- `check_site`: fold `_check_file` over every HTML document of the site. -/
def check_site (cfg : Config) (fs : FS) (docs : List DocFile) : CheckState :=
  docs.foldl (check_file cfg fs) initState

/-- `LinkChecker.__init__` followed by `check_site`: a missing site root
raises before any checking begins (the fatal setup failure); otherwise the
full traversal runs to completion and yields the issue list. -/
def run_checker (site_exists : Bool) (cfg : Config) (fs : FS)
    (docs : List DocFile) : Except String (List LinkIssue) :=
  if site_exists then .ok (check_site cfg fs docs).issues
  else .error "Site directory does not exist"

/-! ## Definitions taken from claim wording (for refinement contrast)

The two `claim*` definitions below follow the words of the claims being
checked, not the source; they exist to be compared with the definitions
translated from the source. -/

/-- Follows the claim's words for the fallback of the line lookup: "at
least half of the tag's whitespace-delimited tokens occur as substrings",
with half meaning the exact rational half of the token count. -/
def claimHalfTokens (tagStr line : String) : Bool :=
  let tag_parts := pySplitWs tagStr
  decide (tag_parts.length ≤ 2 * (tag_parts.filter (fun part => pyIn part line)).length)

/-- Follows the claim's words for the whole line lookup: first line with an
exact match, else first line where at least half of the tokens occur, else
line 1. -/
def claimLineNumber (tagStr content : String) : Nat :=
  let lines := pySplitNl content
  match firstIdx (fun l => pyIn tagStr l) lines with
  | some i => i + 1
  | none =>
    match firstIdx (claimHalfTokens tagStr) lines with
    | some i => i + 1
    | none => 1

/-- Join tokens with single hyphens. -/
def joinDash : List String → String
  | [] => ""
  | [t] => t
  | t :: ts => t ++ "-" ++ joinDash ts

/-- Follows the claim's words for anchor-name normalization: "lowercased,
internal whitespace collapsed to single hyphens". -/
def claimNorm (s : String) : String := joinDash (pySplitWs (pyLower s))

/-! ## Concrete fixtures used by witnesses and counterexamples -/

/-- A tiny site whose only entries are the page and an extension-less
`LICENSE` file. -/
def fsLicense : FS := ⟨[["site", "LICENSE"], ["site", "index.html"]], [["site"]], []⟩

/-- A filesystem in which statting `site/bad` raises an OS error. -/
def fsErr : FS := ⟨[], [["site"]], [["site", "bad"]]⟩

/-- A run with external checking on and an HTTP collaborator answering 404
to every probe. -/
def cfg404 : Config := ⟨true, 10, "https://example.com", fun _ => .status 404 "Not Found"⟩

/-- A run with external checking disabled (the constructor default). -/
def cfgOff : Config := ⟨false, 10, "https://example.com", fun _ => .status 200 "OK"⟩

/-- A run whose HTTP collaborator times out on every probe. -/
def cfgTimeout : Config := ⟨true, 10, "https://example.com", fun _ => .timeout⟩

/-- A parsed page holding one same-page anchor reference with no matching
element anywhere on the page. -/
def anchorSoup : List Node := [.elem "a" [("href", "#nope")] [.text "x"]]

def anchorDoc : DocFile := ⟨"index.html", ["site"], .ok (anchorSoup, "")⟩

/-- A parsed page holding one external reference. -/
def extSoup : List Node := [.elem "a" [("href", "http://x.example/")] [.text "x"]]

def extDoc (rel : String) : DocFile := ⟨rel, ["site"], .ok (extSoup, "")⟩

/-- A page whose single heading has two internal spaces in its text. -/
def headingSoup : List Node := [.elem "h1" [] [.text "A  B"]]

def headingDoc : DocFile := ⟨"index.html", ["site"], .ok (headingSoup, "")⟩

/-- A page referencing the Hugo config file itself. -/
def configLinkSoup : List Node := [.elem "a" [("href", "config.toml")] [.text "c"]]

def configLinkDoc : DocFile := ⟨"index.html", ["site"], .ok (configLinkSoup, "")⟩

/-- A site tree that contains a Hugo config file next to the page. -/
def fsWithConfig : FS := ⟨[["site", "index.html"], ["site", "config.toml"]], [["site"]], []⟩

/-- The same site tree without the config file. -/
def fsNoConfig : FS := ⟨[["site", "index.html"]], [["site"]], []⟩

/-- Run configuration as after detecting a base URL in a config file. -/
def cfgBaseA : Config := ⟨false, 10, "https://found.example", fun _ => .status 200 "OK"⟩

/-- Run configuration as with the default base URL. -/
def cfgBaseB : Config := ⟨false, 10, "https://example.com", fun _ => .status 200 "OK"⟩

/-- A site for internal-link checks: `index.html` and `page1.html` exist. -/
def fsPages : FS := ⟨[["site", "index.html"], ["site", "page1.html"]], [["site"]], []⟩

/-- A page with one valid and one broken internal reference. -/
def brokenSoup : List Node :=
  [.elem "a" [("href", "page1.html")] [.text "ok"],
   .elem "a" [("href", "missing.html")] [.text "bad"]]

def brokenDoc : DocFile := ⟨"index.html", ["site"], .ok (brokenSoup, "")⟩

/-! # Theorems -/

/-! ## First-index characterization -/

theorem firstIdx_some_spec {p : String → Bool} :
    ∀ {l : List String} {i : Nat}, firstIdx p l = some i →
      i < l.length ∧ p (l.getD i "") = true ∧ ∀ j, j < i → p (l.getD j "") = false := by
  intro l
  induction l with
  | nil => intro i h; simp [firstIdx] at h
  | cons a t ih =>
    intro i h
    by_cases hp : p a = true
    · simp [firstIdx, hp] at h
      subst h
      refine ⟨by simp, by simpa using hp, ?_⟩
      intro j hj; omega
    · simp [firstIdx, hp] at h
      obtain ⟨k, hk, hki⟩ := h
      subst hki
      obtain ⟨h1, h2, h3⟩ := ih hk
      refine ⟨by simpa using h1, by simpa using h2, ?_⟩
      intro j hj
      cases j with
      | zero => simpa using hp
      | succ j' => simpa using h3 j' (by omega)

theorem firstIdx_none_spec {p : String → Bool} :
    ∀ {l : List String}, firstIdx p l = none →
      ∀ j, j < l.length → p (l.getD j "") = false := by
  intro l
  induction l with
  | nil => intro _ j hj; simp at hj
  | cons a t ih =>
    intro h j hj
    by_cases hp : p a = true
    · simp [firstIdx, hp] at h
    · simp [firstIdx, hp] at h
      cases j with
      | zero => simpa using hp
      | succ j' => simpa using ih h j' (by simpa using hj)

/-- C6 (amended): the line lookup returns the first 1-indexed line containing
the serialized tag as a substring; failing that, the first line in which at
least `⌊n/2⌋` of the tag's `n` whitespace-delimited tokens occur as
substrings (integer floor division, not the exact half the claim states);
failing both, line 1. -/
theorem c6_line_number_characterization (tagStr content : String) :
    ∃ j, find_line_number tagStr content = j + 1 ∧
      ((j < (pySplitNl content).length ∧
          pyIn tagStr ((pySplitNl content).getD j "") = true ∧
          ∀ k, k < j → pyIn tagStr ((pySplitNl content).getD k "") = false)
       ∨ ((∀ k, k < (pySplitNl content).length →
             pyIn tagStr ((pySplitNl content).getD k "") = false) ∧
          j < (pySplitNl content).length ∧
          halfTokensMatch tagStr ((pySplitNl content).getD j "") = true ∧
          ∀ k, k < j → halfTokensMatch tagStr ((pySplitNl content).getD k "") = false)
       ∨ ((∀ k, k < (pySplitNl content).length →
             pyIn tagStr ((pySplitNl content).getD k "") = false) ∧
          (∀ k, k < (pySplitNl content).length →
             halfTokensMatch tagStr ((pySplitNl content).getD k "") = false) ∧
          j = 0)) := by
  cases h1 : firstIdx (fun l => pyIn tagStr l) (pySplitNl content) with
  | some i =>
    obtain ⟨ha, hb, hc⟩ := firstIdx_some_spec h1
    exact ⟨i, by simp [find_line_number, h1], Or.inl ⟨ha, hb, hc⟩⟩
  | none =>
    have hnone := fun j => firstIdx_none_spec h1 j
    cases h2 : firstIdx (halfTokensMatch tagStr) (pySplitNl content) with
    | some i =>
      obtain ⟨ha, hb, hc⟩ := firstIdx_some_spec h2
      exact ⟨i, by simp [find_line_number, h1, h2], Or.inr (Or.inl ⟨hnone, ha, hb, hc⟩)⟩
    | none =>
      exact ⟨0, by simp [find_line_number, h1, h2],
        Or.inr (Or.inr ⟨hnone, fun j => firstIdx_none_spec h2 j, rfl⟩)⟩

/-- C6 counterexample: for the tag string `abc def ghi` (three tokens) and a
source whose second line contains only the token `abc`, the code returns
line 2 (one of three tokens meets the `3 // 2 = 1` floor threshold), while
the claim's "at least half of the tokens" reading returns line 1. -/
theorem c6_counterexample :
    find_line_number "abc def ghi" "xxx\nabc" = 2 ∧
    claimLineNumber "abc def ghi" "xxx\nabc" = 1 := by
  exact ⟨by decide, by decide⟩

/-! ## Internal resolver claims -/

/-- C2 (amended): an internal reference whose candidate path (resolved
against the referencing directory, with the directory index appended for a
directory) exists on disk produces no internal-link issue, provided the
path's final component has a file extension or the sibling path with
`.html` appended also exists; an existing extension-less target without the
`.html` sibling still produces an issue. -/
theorem c2_internal_exists_no_issue (fs : FS) (dir : List String) (url : String)
    (hr : fs.raises (resolveTarget dir url) = false)
    (hex : fs.path_exists (candidate fs dir url) = true)
    (hok : pySuffix (pathName (candidate fs dir url)) ≠ "" ∨
      (pathName (candidate fs dir url) ≠ "" ∧
       fs.path_exists ((candidate fs dir url).dropLast
         ++ [pyWithSuffix (pathName (candidate fs dir url)) ".html"]) = true)) :
    check_internal_link fs dir url = none := by
  rcases hok with hsuf | ⟨hname, hhtml⟩
  · simp [check_internal_link, check_internal_core, hr, hex, hsuf]
  · by_cases hs : pySuffix (pathName (candidate fs dir url)) = ""
    · simp [check_internal_link, check_internal_core, hr, hex, hs, hname, hhtml]
    · simp [check_internal_link, check_internal_core, hr, hex, hs]

theorem c2_internal_exists_no_issue_witness :
    fsPages.path_exists (candidate fsPages ["site"] "page1.html") = true ∧
    check_internal_link fsPages ["site"] "page1.html" = none :=
  ⟨by decide,
   c2_internal_exists_no_issue fsPages ["site"] "page1.html" (by decide) (by decide)
     (Or.inl (by decide))⟩

/-- C2 counterexample: the reference `LICENSE` from `site/index.html`
resolves to the existing (non-directory) file `site/LICENSE`, yet the
resolver still records an issue, because the path has no extension and
`site/LICENSE.html` does not exist. -/
theorem c2_counterexample :
    fsLicense.path_exists (candidate fsLicense ["site"] "LICENSE") = true ∧
    fsLicense.is_dir (resolveTarget ["site"] "LICENSE") = false ∧
    check_internal_link fsLicense ["site"] "LICENSE"
      = some "Target file not found (tried .html extension)" :=
  ⟨by decide, by decide, by decide⟩

/-- C9: a site-absolute internal reference (leading `/`) is joined by
`pathlib` so that the referencing directory is discarded: the candidate is
resolved purely from the reference, the check outcome is independent of the
referencing document's directory, and `/about/` in particular is statted at
the machine's filesystem path `/about`. -/
theorem c9_absolute_ref_discards_dir (url : String)
    (h : pyStartsWith url "/" = true) :
    (∀ dir : List String, resolveTarget dir url = pyResolve (urlParts url)) ∧
    (∀ (fs : FS) (d1 d2 : List String),
        check_internal_link fs d1 url = check_internal_link fs d2 url) := by
  have hj : ∀ dir : List String, pyJoin dir url = urlParts url := by
    intro dir; simp [pyJoin, h]
  constructor
  · intro dir; simp [resolveTarget, hj]
  · intro fs d1 d2
    simp [check_internal_link, check_internal_core, candidate, resolveTarget, hj]

theorem c9_absolute_ref_discards_dir_witness :
    resolveTarget ["var", "www", "site"] "/about/" = ["about"] ∧
    check_internal_link fsPages ["var", "www", "site"] "/about/"
      = check_internal_link fsPages [] "/about/" := by
  refine ⟨?_, (c9_absolute_ref_discards_dir "/about/" (by decide)).2 fsPages _ _⟩
  rw [(c9_absolute_ref_discards_dir "/about/" (by decide)).1 ["var", "www", "site"]]
  decide

/-! ## Anchor resolver claims -/

/-- C7 (amended): the anchor resolver succeeds exactly when an element's
`id` equals the anchor, or an `a` element's `name` attribute equals the
anchor, or some `h1`–`h6` heading's text — stripped, lowercased, with each
single space character replaced by a hyphen (not whitespace runs collapsed)
— equals the percent-decoded anchor lowercased with each space replaced by
a hyphen; on failure it records exactly one issue with message
`Anchor not found on page`. -/
theorem c7_anchor_resolution (d : DocFile) (soup : List Node) (raw : String)
    (hc : d.content = .ok (soup, raw)) (st : CheckState) (url : String)
    (line : Nat) (ctx : String) :
    (check_anchor_found soup (pyDropOne url) = true ↔
      ((∃ n ∈ preorderList soup, n.attr? "id" = some (pyDropOne url)) ∨
       (∃ n ∈ preorderList soup,
          n.tagName = some "a" ∧ n.attr? "name" = some (pyDropOne url)) ∨
       (∃ n ∈ preorderList soup,
          (match n.tagName with | some t => headingTag t | none => false) = true ∧
          dashify (pyLower (pyStrip (getText n)))
            = dashify (pyLower (pyUnquote (pyDropOne url)))))) ∧
    (check_anchor_found soup (pyDropOne url) = true →
      check_anchor_link d st url line ctx = st) ∧
    (check_anchor_found soup (pyDropOne url) = false →
      check_anchor_link d st url line ctx
        = addIssue st ⟨d.rel_path, line, "anchor", url, "Anchor not found on page", ctx⟩) := by
  refine ⟨?_, ?_, ?_⟩
  · simp only [check_anchor_found, findByIdB, findANameB, findHeadingB,
      List.any_eq_true, Bool.or_eq_true, Bool.and_eq_true, beq_iff_eq]
    exact or_assoc
  · intro hf; simp [check_anchor_link, hc, hf]
  · intro hf; simp [check_anchor_link, hc, hf]

theorem c7_anchor_resolution_witness :
    check_anchor_link ⟨"page1.html", ["site"],
        .ok ([Node.elem "h1" [("id", "section1")] [Node.text "Section 1"]], "")⟩
      initState "#section1" 1 "c"
      = initState := by
  have h := c7_anchor_resolution
    ⟨"page1.html", ["site"],
      .ok ([Node.elem "h1" [("id", "section1")] [Node.text "Section 1"]], "")⟩
    [Node.elem "h1" [("id", "section1")] [Node.text "Section 1"]] "" rfl
    initState "#section1" 1 "c"
  exact h.2.1 (by decide)

/-- C7 counterexample: the heading text `A  B` (two internal spaces)
normalizes under the claim's rule (whitespace runs collapsed to single
hyphens) to exactly the normalized anchor `a-b`, so the claim predicts no
issue; the code compares `a--b` with `a-b` and records the
`Anchor not found on page` issue. -/
theorem c7_counterexample :
    claimNorm (getText (Node.elem "h1" [] [Node.text "A  B"]))
      = claimNorm (pyUnquote (pyDropOne "#a-b")) ∧
    (check_anchor_link headingDoc initState "#a-b" 1 "c").issues
      = [⟨"index.html", 1, "anchor", "#a-b", "Anchor not found on page", "c"⟩] := by
  exact ⟨by decide, by decide⟩

/-! ## External resolver machinery -/

theorem cel_state (cfg : Config) (rp : String) (st : CheckState) (url : String)
    (line : Nat) (ctx : String) :
    ((check_external_link cfg rp st url line ctx).visited_external,
      (check_external_link cfg rp st url line ctx).probe_log)
      = if st.visited_external.contains url then (st.visited_external, st.probe_log)
        else (url :: st.visited_external, st.probe_log ++ [url]) := by
  by_cases hv : st.visited_external.contains url = true
  · have hm : url ∈ st.visited_external := by simpa using hv
    simp [check_external_link, hv, hm]
  · have hm : url ∉ st.visited_external := by simpa using hv
    cases hh : cfg.http_head url with
    | status code reason =>
      by_cases hcode : 400 ≤ code
      · simp [check_external_link, hv, hm, hh, hcode, addIssue]
      · simp [check_external_link, hv, hm, hh, hcode, addIssue]
    | timeout => simp [check_external_link, hv, hm, hh, addIssue]
    | connError => simp [check_external_link, hv, hm, hh, addIssue]
    | reqError dd => simp [check_external_link, hv, hm, hh, addIssue]

theorem cel_skip (cfg : Config) (rp : String) (st : CheckState) (url : String)
    (line : Nat) (ctx : String) (hv : st.visited_external.contains url = true) :
    check_external_link cfg rp st url line ctx = st := by
  have hm : url ∈ st.visited_external := by simpa using hv
  simp [check_external_link, hv, hm]

theorem cel_issues (cfg : Config) (rp : String) (st : CheckState) (url : String)
    (line : Nat) (ctx : String) :
    ∃ new, (check_external_link cfg rp st url line ctx).issues = st.issues ++ new ∧
      ∀ i ∈ new, i.file_path = rp ∧ i.url = url ∧ i.link_type = "external" := by
  by_cases hv : st.visited_external.contains url = true
  · have hm : url ∈ st.visited_external := by simpa using hv
    exact ⟨[], by simp [check_external_link, hv, hm], by simp⟩
  · have hm : url ∉ st.visited_external := by simpa using hv
    cases hh : cfg.http_head url with
    | status code reason =>
      by_cases hcode : 400 ≤ code
      · exact ⟨[⟨rp, line, "external", url,
            "HTTP " ++ toString code ++ ": " ++ reason, ctx⟩],
          by simp [check_external_link, hv, hm, hh, hcode, addIssue], by simp⟩
      · exact ⟨[], by simp [check_external_link, hv, hm, hh, hcode, addIssue], by simp⟩
    | timeout =>
      exact ⟨[⟨rp, line, "external", url,
          "Request timeout after " ++ toString cfg.timeout ++ " seconds", ctx⟩],
        by simp [check_external_link, hv, hm, hh, addIssue], by simp⟩
    | connError =>
      exact ⟨[⟨rp, line, "external", url, "Connection error", ctx⟩],
        by simp [check_external_link, hv, hm, hh, addIssue], by simp⟩
    | reqError dd =>
      exact ⟨[⟨rp, line, "external", url, "Request error: " ++ dd, ctx⟩],
        by simp [check_external_link, hv, hm, hh, addIssue], by simp⟩

/-! ## Classifier state lemmas -/

theorem check_link_nonexternal_eq (cfg : Config) (fs : FS) (d : DocFile)
    (st : CheckState) (ref : String × Nat × String)
    (h1 : urlScheme ref.1 ≠ "http") (h2 : urlScheme ref.1 ≠ "https") :
    check_link cfg fs d st ref
      = { st with issues := st.issues ++ (check_link cfg fs d initState ref).issues } := by
  have hne : ¬(urlScheme ref.1 = "http" ∨ urlScheme ref.1 = "https") :=
    fun h => h.elim h1 h2
  by_cases hr : urlparse_raises ref.1 = true
  · simp only [check_link]
    rw [if_pos hr, if_pos hr]
    simp [addIssue, initState]
  · simp only [check_link]
    rw [if_neg hr, if_neg hr, if_neg hne, if_neg hne]
    by_cases hsc0 : urlScheme ref.1 = ""
    · rw [if_pos hsc0, if_pos hsc0]
      by_cases ha : pyStartsWith ref.1 "#" = true
      · rw [if_pos ha, if_pos ha]
        simp only [check_anchor_link]
        cases hcn : d.content with
        | error e => simp [addIssue, initState]
        | ok pr =>
          obtain ⟨soup, raw⟩ := pr
          by_cases hf : check_anchor_found soup (pyDropOne ref.1) = true
          · simp [hf, initState]
          · simp [hf, addIssue, initState]
      · rw [if_neg ha, if_neg ha]
        cases hil : check_internal_link fs d.dir ref.1 with
        | none => simp [initState]
        | some msg => simp [addIssue, initState]
    · rw [if_neg hsc0, if_neg hsc0]
      simp [initState]

theorem check_link_ext_off_eq (cfg : Config) (fs : FS) (d : DocFile)
    (st : CheckState) (ref : String × Nat × String)
    (hoff : cfg.check_external = false)
    (hsc : urlScheme ref.1 = "http" ∨ urlScheme ref.1 = "https")
    (hr : urlparse_raises ref.1 = false) :
    check_link cfg fs d st ref = st := by
  simp only [check_link]
  rw [if_neg (by simp [hr]), if_pos hsc, if_neg (by simp [hoff])]

/-! ## Probe de-duplication invariant (C4) -/

theorem check_link_probe_inv (cfg : Config) (fs : FS) (d : DocFile)
    (st : CheckState) (ref : String × Nat × String)
    (hnd : st.probe_log.Nodup)
    (hsub : ∀ u ∈ st.probe_log, u ∈ st.visited_external) :
    (check_link cfg fs d st ref).probe_log.Nodup ∧
      ∀ u ∈ (check_link cfg fs d st ref).probe_log,
        u ∈ (check_link cfg fs d st ref).visited_external := by
  by_cases hr : urlparse_raises ref.1 = true
  · have heq : check_link cfg fs d st ref
        = addIssue st ⟨d.rel_path, ref.2.1, "internal", ref.1,
            "Error parsing link: Invalid IPv6 URL", ref.2.2⟩ := by
      simp only [check_link]; rw [if_pos hr]
    rw [heq]
    exact ⟨hnd, hsub⟩
  by_cases hsc : urlScheme ref.1 = "http" ∨ urlScheme ref.1 = "https"
  · by_cases hext : cfg.check_external = true
    · have heq : check_link cfg fs d st ref
          = check_external_link cfg d.rel_path st ref.1 ref.2.1 ref.2.2 := by
        simp only [check_link]; rw [if_neg hr, if_pos hsc, if_pos hext]
      rw [heq]
      have hst := cel_state cfg d.rel_path st ref.1 ref.2.1 ref.2.2
      by_cases hv : st.visited_external.contains ref.1 = true
      · rw [if_pos hv, Prod.mk.injEq] at hst
        obtain ⟨hvis, hpro⟩ := hst
        rw [hvis, hpro]
        exact ⟨hnd, hsub⟩
      · rw [if_neg hv, Prod.mk.injEq] at hst
        obtain ⟨hvis, hpro⟩ := hst
        rw [hvis, hpro]
        have hvm : ref.1 ∉ st.visited_external := by simpa using hv
        have hnotmem : ref.1 ∉ st.probe_log := fun hmem => hvm (hsub _ hmem)
        constructor
        · simp [List.nodup_append, hnd, hnotmem]
        · intro u hu
          rcases List.mem_append.1 hu with hup | hus
          · exact List.mem_cons_of_mem _ (hsub u hup)
          · simp at hus
            subst hus
            exact List.mem_cons_self _ _
    · have heq : check_link cfg fs d st ref = st := by
        simp only [check_link]; rw [if_neg hr, if_pos hsc, if_neg hext]
      rw [heq]; exact ⟨hnd, hsub⟩
  · push_neg at hsc
    rw [check_link_nonexternal_eq cfg fs d st ref hsc.1 hsc.2]
    exact ⟨hnd, hsub⟩

theorem foldl_check_link_probe_inv (cfg : Config) (fs : FS) (d : DocFile) :
    ∀ (refs : List (String × Nat × String)) (st : CheckState),
      st.probe_log.Nodup → (∀ u ∈ st.probe_log, u ∈ st.visited_external) →
      ((refs.foldl (check_link cfg fs d) st).probe_log.Nodup ∧
        ∀ u ∈ (refs.foldl (check_link cfg fs d) st).probe_log,
          u ∈ (refs.foldl (check_link cfg fs d) st).visited_external)
  | [], _, h1, h2 => ⟨h1, h2⟩
  | r :: rs, st, h1, h2 => by
    obtain ⟨h1a, h2a⟩ := check_link_probe_inv cfg fs d st r h1 h2
    simpa using foldl_check_link_probe_inv cfg fs d rs (check_link cfg fs d st r) h1a h2a

theorem check_file_probe_inv (cfg : Config) (fs : FS) (st : CheckState) (d : DocFile)
    (h1 : st.probe_log.Nodup)
    (h2 : ∀ u ∈ st.probe_log, u ∈ st.visited_external) :
    (check_file cfg fs st d).probe_log.Nodup ∧
      ∀ u ∈ (check_file cfg fs st d).probe_log,
        u ∈ (check_file cfg fs st d).visited_external := by
  cases hcn : d.content with
  | error e =>
    refine ⟨?_, ?_⟩ <;> simp [check_file, hcn, addIssue]
    · exact h1
    · exact h2
  | ok pr =>
    obtain ⟨soup, raw⟩ := pr
    have h := foldl_check_link_probe_inv cfg fs d (extract_links soup raw) st h1 h2
    simpa [check_file, hcn] using h

theorem foldl_check_file_probe_inv (cfg : Config) (fs : FS) :
    ∀ (docs : List DocFile) (st : CheckState),
      st.probe_log.Nodup → (∀ u ∈ st.probe_log, u ∈ st.visited_external) →
      ((docs.foldl (check_file cfg fs) st).probe_log.Nodup ∧
        ∀ u ∈ (docs.foldl (check_file cfg fs) st).probe_log,
          u ∈ (docs.foldl (check_file cfg fs) st).visited_external)
  | [], _, h1, h2 => ⟨h1, h2⟩
  | d :: ds, st, h1, h2 => by
    obtain ⟨h1a, h2a⟩ := check_file_probe_inv cfg fs st d h1 h2
    simpa using foldl_check_file_probe_inv cfg fs ds (check_file cfg fs st d) h1a h2a

theorem nodup_count_le_one :
    ∀ {l : List String}, l.Nodup → ∀ u : String, l.count u ≤ 1 := by
  intro l
  induction l with
  | nil => intro _ u; simp
  | cons a t ih =>
    intro h u
    obtain ⟨ha, ht⟩ := List.nodup_cons.1 h
    rw [List.count_cons]
    by_cases hu : a = u
    · subst hu
      have h0 : t.count a = 0 := by rw [List.count_eq_zero]; exact ha
      simp [h0]
    · simpa [hu] using ih ht u

/-- C4: over a whole run, each external URL is probed at most once: the
URL is tested against the visited-external set before probing and added to
the set when probed, so the probe log of any run contains any URL at most
once, whatever the site, the configuration and the HTTP collaborator. -/
theorem c4_probe_at_most_once (cfg : Config) (fs : FS) (docs : List DocFile)
    (u : String) :
    (check_site cfg fs docs).probe_log.count u ≤ 1 := by
  have h := foldl_check_file_probe_inv cfg fs docs initState
    (by simp [initState]) (by simp [initState])
  exact nodup_count_le_one h.1 u

/-! ## External checking disabled (C5) -/

theorem check_link_off_probe (cfg : Config) (fs : FS) (d : DocFile)
    (hoff : cfg.check_external = false) (st : CheckState)
    (ref : String × Nat × String) :
    (check_link cfg fs d st ref).probe_log = st.probe_log := by
  by_cases hr : urlparse_raises ref.1 = true
  · have heq : check_link cfg fs d st ref
        = addIssue st ⟨d.rel_path, ref.2.1, "internal", ref.1,
            "Error parsing link: Invalid IPv6 URL", ref.2.2⟩ := by
      simp only [check_link]; rw [if_pos hr]
    rw [heq]
    simp [addIssue]
  · by_cases hsc : urlScheme ref.1 = "http" ∨ urlScheme ref.1 = "https"
    · rw [check_link_ext_off_eq cfg fs d st ref hoff hsc (by simpa using hr)]
    · push_neg at hsc
      rw [check_link_nonexternal_eq cfg fs d st ref hsc.1 hsc.2]

theorem foldl_check_link_off_probe (cfg : Config) (fs : FS) (d : DocFile)
    (hoff : cfg.check_external = false) :
    ∀ (refs : List (String × Nat × String)) (st : CheckState),
      (refs.foldl (check_link cfg fs d) st).probe_log = st.probe_log
  | [], _ => rfl
  | r :: rs, st => by
    rw [List.foldl_cons, foldl_check_link_off_probe cfg fs d hoff rs _,
      check_link_off_probe cfg fs d hoff st r]

theorem check_file_off_probe (cfg : Config) (fs : FS)
    (hoff : cfg.check_external = false) (st : CheckState) (d : DocFile) :
    (check_file cfg fs st d).probe_log = st.probe_log := by
  cases hcn : d.content with
  | error e => simp [check_file, hcn, addIssue]
  | ok pr =>
    obtain ⟨soup, raw⟩ := pr
    simpa [check_file, hcn] using
      foldl_check_link_off_probe cfg fs d hoff (extract_links soup raw) st

theorem foldl_check_file_off_probe (cfg : Config) (fs : FS)
    (hoff : cfg.check_external = false) :
    ∀ (docs : List DocFile) (st : CheckState),
      (docs.foldl (check_file cfg fs) st).probe_log = st.probe_log
  | [], _ => rfl
  | d :: ds, st => by
    rw [List.foldl_cons, foldl_check_file_off_probe cfg fs hoff ds _,
      check_file_off_probe cfg fs hoff st d]

/-- C5: when external checking is disabled, no network probe is ever
issued for any site (the probe log of every run is empty); and a run over
readable documents all of whose extracted references parse and carry an
`http` or `https` scheme (i.e. are classified external) yields zero
issues. -/
theorem c5_external_disabled (cfg : Config) (fs : FS)
    (hoff : cfg.check_external = false) :
    (∀ docs : List DocFile, (check_site cfg fs docs).probe_log = []) ∧
    (∀ docs : List DocFile,
      (∀ d ∈ docs, ∃ soup raw, d.content = .ok (soup, raw) ∧
        ∀ r ∈ extract_links soup raw,
          urlparse_raises r.1 = false ∧
          (urlScheme r.1 = "http" ∨ urlScheme r.1 = "https")) →
      (check_site cfg fs docs).issues = []) := by
  constructor
  · intro docs
    exact foldl_check_file_off_probe cfg fs hoff docs initState
  · intro docs hdocs
    have hfold : ∀ (ds : List DocFile) (st : CheckState),
        (∀ d ∈ ds, ∃ soup raw, d.content = .ok (soup, raw) ∧
          ∀ r ∈ extract_links soup raw,
            urlparse_raises r.1 = false ∧
            (urlScheme r.1 = "http" ∨ urlScheme r.1 = "https")) →
        ds.foldl (check_file cfg fs) st = st := by
      intro ds
      induction ds with
      | nil => intro st _; rfl
      | cons d ds ih =>
        intro st hall
        obtain ⟨soup, raw, hok, hrefs⟩ := hall d (by simp)
        have hrefs_fold : ∀ (rs : List (String × Nat × String)) (st' : CheckState),
            (∀ r ∈ rs, urlparse_raises r.1 = false ∧
              (urlScheme r.1 = "http" ∨ urlScheme r.1 = "https")) →
            rs.foldl (check_link cfg fs d) st' = st' := by
          intro rs
          induction rs with
          | nil => intro st' _; rfl
          | cons r rs ihr =>
            intro st' hall'
            rw [List.foldl_cons,
              check_link_ext_off_eq cfg fs d st' r hoff (hall' r (by simp)).2
                (hall' r (by simp)).1]
            exact ihr st' (fun r' hr' => hall' r' (by simp [hr']))
        have hfile : check_file cfg fs st d = st := by
          simp only [check_file, hok]
          exact hrefs_fold _ st hrefs
        rw [List.foldl_cons, hfile]
        exact ih st (fun d' hd' => hall d' (by simp [hd']))
    have hsite : check_site cfg fs docs = initState := hfold docs initState hdocs
    rw [hsite]
    rfl

theorem c5_external_disabled_witness :
    (check_site cfgOff fsPages [extDoc "a.html"]).probe_log = [] ∧
    (check_site cfgOff fsPages [extDoc "a.html"]).issues = [] := by
  have h := c5_external_disabled cfgOff fsPages (by decide)
  refine ⟨h.1 [extDoc "a.html"], h.2 [extDoc "a.html"] ?_⟩
  intro d hd
  simp only [List.mem_singleton] at hd
  subst hd
  exact ⟨extSoup, "", rfl, by decide⟩

/-! ## Issue shape machinery (C1, C3) -/

theorem check_link_issues (cfg : Config) (fs : FS) (d : DocFile)
    (st : CheckState) (ref : String × Nat × String) :
    ∃ new, (check_link cfg fs d st ref).issues = st.issues ++ new ∧
      ∀ i ∈ new, i.file_path = d.rel_path ∧ i.url = ref.1 ∧
        (pyStartsWith ref.1 "#" = false → i.link_type ≠ "anchor") := by
  by_cases hr : urlparse_raises ref.1 = true
  · have heq : check_link cfg fs d st ref
        = addIssue st ⟨d.rel_path, ref.2.1, "internal", ref.1,
            "Error parsing link: Invalid IPv6 URL", ref.2.2⟩ := by
      simp only [check_link]; rw [if_pos hr]
    rw [heq]
    refine ⟨[⟨d.rel_path, ref.2.1, "internal", ref.1,
        "Error parsing link: Invalid IPv6 URL", ref.2.2⟩], by simp [addIssue], ?_⟩
    intro i hi
    simp only [List.mem_singleton] at hi
    subst hi
    exact ⟨rfl, rfl, fun _ => by simp⟩
  by_cases hsc : urlScheme ref.1 = "http" ∨ urlScheme ref.1 = "https"
  · by_cases hext : cfg.check_external = true
    · have heq : check_link cfg fs d st ref
          = check_external_link cfg d.rel_path st ref.1 ref.2.1 ref.2.2 := by
        simp only [check_link]; rw [if_neg hr, if_pos hsc, if_pos hext]
      rw [heq]
      obtain ⟨new, ha, hb⟩ := cel_issues cfg d.rel_path st ref.1 ref.2.1 ref.2.2
      refine ⟨new, ha, fun i hi => ?_⟩
      obtain ⟨f1, f2, f3⟩ := hb i hi
      exact ⟨f1, f2, fun _ => by rw [f3]; decide⟩
    · have heq : check_link cfg fs d st ref = st := by
        simp only [check_link]; rw [if_neg hr, if_pos hsc, if_neg hext]
      rw [heq]; exact ⟨[], by simp, by simp⟩
  · push_neg at hsc
    by_cases hsc0 : urlScheme ref.1 = ""
    · by_cases ha : pyStartsWith ref.1 "#" = true
      · have heq : check_link cfg fs d st ref
            = check_anchor_link d st ref.1 ref.2.1 ref.2.2 := by
          simp only [check_link]
          rw [if_neg hr, if_neg (fun h => h.elim hsc.1 hsc.2), if_pos hsc0, if_pos ha]
        rw [heq]
        simp only [check_anchor_link]
        cases hcn : d.content with
        | error e =>
          refine ⟨[⟨d.rel_path, ref.2.1, "anchor", ref.1,
              "Error checking anchor: " ++ e, ref.2.2⟩], by simp [addIssue], ?_⟩
          intro i hi
          simp only [List.mem_singleton] at hi
          subst hi
          refine ⟨rfl, rfl, fun hf => ?_⟩
          rw [hf] at ha
          exact absurd ha (by simp)
        | ok pr =>
          obtain ⟨soup, raw⟩ := pr
          dsimp only
          by_cases hf : check_anchor_found soup (pyDropOne ref.1) = true
          · rw [if_pos hf]
            exact ⟨[], by simp, by simp⟩
          · rw [if_neg hf]
            refine ⟨[⟨d.rel_path, ref.2.1, "anchor", ref.1,
                "Anchor not found on page", ref.2.2⟩], by simp [addIssue], ?_⟩
            intro i hi
            simp only [List.mem_singleton] at hi
            subst hi
            refine ⟨rfl, rfl, fun hff => ?_⟩
            rw [hff] at ha
            exact absurd ha (by simp)
      · have heq : check_link cfg fs d st ref
            = match check_internal_link fs d.dir ref.1 with
              | none => st
              | some msg => addIssue st
                  ⟨d.rel_path, ref.2.1, "internal", ref.1, msg, ref.2.2⟩ := by
          simp only [check_link]
          rw [if_neg hr, if_neg (fun h => h.elim hsc.1 hsc.2), if_pos hsc0, if_neg ha]
        rw [heq]
        cases hil : check_internal_link fs d.dir ref.1 with
        | none => exact ⟨[], by simp, by simp⟩
        | some msg =>
          refine ⟨[⟨d.rel_path, ref.2.1, "internal", ref.1, msg, ref.2.2⟩],
            by simp [addIssue], ?_⟩
          intro i hi
          simp only [List.mem_singleton] at hi
          subst hi
          exact ⟨rfl, rfl, fun _ => by simp⟩
    · have heq : check_link cfg fs d st ref = st := by
        simp only [check_link]
        rw [if_neg hr, if_neg (fun h => h.elim hsc.1 hsc.2), if_neg hsc0]
      rw [heq]; exact ⟨[], by simp, by simp⟩

theorem foldl_check_link_issues (cfg : Config) (fs : FS) (d : DocFile) :
    ∀ (refs : List (String × Nat × String)) (st : CheckState),
      ∃ new, (refs.foldl (check_link cfg fs d) st).issues = st.issues ++ new ∧
        ∀ i ∈ new, i.file_path = d.rel_path ∧ (∃ r ∈ refs, i.url = r.1) ∧
          ((∀ r ∈ refs, pyStartsWith r.1 "#" = false) → i.link_type ≠ "anchor")
  | [], st => ⟨[], by simp, by simp⟩
  | r :: rs, st => by
    obtain ⟨n1, h1, h2⟩ := check_link_issues cfg fs d st r
    obtain ⟨n2, h3, h4⟩ := foldl_check_link_issues cfg fs d rs (check_link cfg fs d st r)
    refine ⟨n1 ++ n2, by rw [List.foldl_cons, h3, h1, List.append_assoc], ?_⟩
    intro i hi
    rcases List.mem_append.1 hi with hi1 | hi2
    · obtain ⟨f1, f2, f3⟩ := h2 i hi1
      exact ⟨f1, ⟨r, by simp, f2⟩, fun hall => f3 (hall r (by simp))⟩
    · obtain ⟨f1, f2, f3⟩ := h4 i hi2
      obtain ⟨r', hr', hurl⟩ := f2
      exact ⟨f1, ⟨r', by simp [hr'], hurl⟩,
        fun hall => f3 (fun r'' hr'' => hall r'' (by simp [hr'']))⟩

theorem extract_links_no_anchor (soup : List Node) (raw : String) :
    ∀ r ∈ extract_links soup raw, pyStartsWith r.1 "#" = false ∧ r.1 ≠ "" := by
  intro r hr
  simp only [extract_links, List.mem_filterMap] at hr
  obtain ⟨tag, htag, hmk⟩ := hr
  by_cases hcond : (pyStrip ((tag.attr? "href").getD "") == ""
      || pyStartsWith (pyStrip ((tag.attr? "href").getD "")) "#") = true
  · rw [if_pos hcond] at hmk
    exact absurd hmk (by simp)
  · rw [if_neg hcond] at hmk
    have heq := Option.some.inj hmk
    subst heq
    simp only [Bool.or_eq_true, not_or] at hcond
    obtain ⟨hc1, hc2⟩ := hcond
    exact ⟨by simpa using hc2, by simpa using hc1⟩

theorem check_file_issues (cfg : Config) (fs : FS) (st : CheckState) (d : DocFile) :
    ∃ new, (check_file cfg fs st d).issues = st.issues ++ new ∧
      ∀ i ∈ new, i.link_type ≠ "anchor" ∧
        ∀ soup raw, d.content = .ok (soup, raw) →
          (i.file_path = d.rel_path ∧ ∃ r ∈ extract_links soup raw, i.url = r.1) := by
  cases hcn : d.content with
  | error e =>
    refine ⟨[⟨d.rel_path, 1, "file", "", "Error reading file: " ++ e, ""⟩],
      by simp [check_file, hcn, addIssue], ?_⟩
    intro i hi
    simp only [List.mem_singleton] at hi
    subst hi
    refine ⟨by simp, ?_⟩
    intro soup raw hok
    exact absurd hok (by simp)
  | ok pr =>
    obtain ⟨soup0, raw0⟩ := pr
    obtain ⟨new, h1, h2⟩ := foldl_check_link_issues cfg fs d (extract_links soup0 raw0) st
    refine ⟨new, by simp only [check_file, hcn]; exact h1, ?_⟩
    intro i hi
    obtain ⟨f1, f2, f3⟩ := h2 i hi
    refine ⟨f3 (fun r hr => (extract_links_no_anchor soup0 raw0 r hr).1), ?_⟩
    intro soup raw hok
    injection hok with hpair
    injection hpair with hs hr
    subst hs
    subst hr
    exact ⟨f1, f2⟩

theorem foldl_check_file_issues (cfg : Config) (fs : FS) :
    ∀ (docs : List DocFile) (st : CheckState),
      ∃ new, (docs.foldl (check_file cfg fs) st).issues = st.issues ++ new ∧
        ∀ i ∈ new, i.link_type ≠ "anchor" ∧
          ∃ d ∈ docs, ∀ soup raw, d.content = .ok (soup, raw) →
            (i.file_path = d.rel_path ∧ ∃ r ∈ extract_links soup raw, i.url = r.1)
  | [], st => ⟨[], by simp, by simp⟩
  | d :: ds, st => by
    obtain ⟨n1, h1, h2⟩ := check_file_issues cfg fs st d
    obtain ⟨n2, h3, h4⟩ := foldl_check_file_issues cfg fs ds (check_file cfg fs st d)
    refine ⟨n1 ++ n2, by rw [List.foldl_cons, h3, h1, List.append_assoc], ?_⟩
    intro i hi
    rcases List.mem_append.1 hi with hi1 | hi2
    · obtain ⟨f1, f2⟩ := h2 i hi1
      exact ⟨f1, d, by simp, f2⟩
    · obtain ⟨f1, d', hd', f2⟩ := h4 i hi2
      exact ⟨f1, d', by simp [hd'], f2⟩

/-! ## Extractor and aggregation claims (C1, C3) -/

theorem map_fst_filterMap_filter (l : List Node)
    (f : Node → Option (String × Nat × String)) (g : Node → Option String)
    (p : Node → Bool)
    (hfg : ∀ a, p a = true → (f a).map (fun r => r.1) = g a)
    (hg : ∀ a, p a = false → g a = none) :
    ((l.filter p).filterMap f).map (fun r => r.1) = l.filterMap g := by
  induction l with
  | nil => simp
  | cons a t ih =>
    by_cases hp : p a = true
    · rw [List.filter_cons_of_pos hp, List.filterMap_cons, List.filterMap_cons]
      have hfa := hfg a hp
      cases hf : f a with
      | none =>
        rw [hf] at hfa
        simp only [Option.map_none'] at hfa
        rw [← hfa]
        simpa using ih
      | some r =>
        rw [hf] at hfa
        simp only [Option.map_some'] at hfa
        rw [← hfa]
        simpa using ih
    · have hg' := hg a (by simpa using hp)
      rw [List.filter_cons_of_neg (by simpa using hp), List.filterMap_cons, hg']
      simpa using ih

/-- C1 (amended): the extractor returns, in document order, exactly the
`a`-tag references whose stripped `href` is neither empty nor beginning
with `#`: same-page anchor references are skipped at extraction together
with the empty ones, so no reference is ever routed to the anchor resolver
and no run ever produces an anchor-typed issue. -/
theorem c1_extractor_skips_anchor_refs :
    (∀ (soup : List Node) (raw : String),
      (extract_links soup raw).map (fun r => r.1)
        = (preorderList soup).filterMap (fun tag =>
            if isAHrefTag tag then
              if pyStrip ((tag.attr? "href").getD "") == ""
                 || pyStartsWith (pyStrip ((tag.attr? "href").getD "")) "#" then none
              else some (pyStrip ((tag.attr? "href").getD ""))
            else none)) ∧
    (∀ (cfg : Config) (fs : FS) (docs : List DocFile),
      ∀ i ∈ (check_site cfg fs docs).issues, i.link_type ≠ "anchor") := by
  constructor
  · intro soup raw
    simp only [extract_links]
    refine map_fst_filterMap_filter (preorderList soup) _ _ _ ?_ ?_
    · intro a hp
      rw [if_pos hp]
      by_cases hcond : (pyStrip ((a.attr? "href").getD "") == ""
          || pyStartsWith (pyStrip ((a.attr? "href").getD "")) "#") = true
      · rw [if_pos hcond, if_pos hcond]
        rfl
      · rw [if_neg hcond, if_neg hcond]
        rfl
    · intro a hp
      rw [if_neg (by simp [hp])]
  · intro cfg fs docs i hi
    obtain ⟨new, h1, h2⟩ := foldl_check_file_issues cfg fs docs initState
    rw [show (check_site cfg fs docs).issues = initState.issues ++ new from h1] at hi
    simp only [initState, List.nil_append] at hi
    exact (h2 i hi).1

theorem c1_extractor_skips_anchor_refs_witness :
    (⟨"index.html", 1, "internal", "missing.html", "Target file not found",
        "<a href=\"missing.html\">bad</a>"⟩ : LinkIssue)
      ∈ (check_site cfgOff fsPages [brokenDoc]).issues ∧
    (⟨"index.html", 1, "internal", "missing.html", "Target file not found",
        "<a href=\"missing.html\">bad</a>"⟩ : LinkIssue).link_type ≠ "anchor" :=
  ⟨by decide,
   c1_extractor_skips_anchor_refs.2 cfgOff fsPages [brokenDoc] _ (by decide)⟩

/-- C1 counterexample: a page whose only reference is the same-page anchor
`#nope`, with no matching element on the page: the extractor's skip
condition `not href or href.startswith('#')` drops it, so nothing reaches
the anchor resolver and the run yields no issue at all, where the claim
demands that the reference be retained and exactly one anchor issue be
produced. -/
theorem c1_counterexample :
    extract_links anchorSoup "" = [] ∧
    check_anchor_found anchorSoup "nope" = false ∧
    (check_site cfgOff fsPages [anchorDoc]).issues = [] :=
  ⟨by decide, by decide, by decide⟩

/-- C3 (amended): in a run over readable documents, every issue carries
the `(file_path, url)` pair of one of that run's extracted references;
checking a non-external reference appends issues that are a function of
the reference alone (internal and anchor issues are never de-duplicated
and never read or write the visited set or the probe log); the external
resolver, however, de-duplicates by URL — a URL already in the visited set
is skipped entirely, producing no second issue. -/
theorem c3_issue_traceability :
    (∀ (cfg : Config) (fs : FS) (docs : List DocFile),
      (∀ d ∈ docs, ∃ soup raw, d.content = .ok (soup, raw)) →
      ∀ i ∈ (check_site cfg fs docs).issues,
        ∃ d ∈ docs, ∃ soup raw, d.content = .ok (soup, raw) ∧
          i.file_path = d.rel_path ∧ ∃ r ∈ extract_links soup raw, i.url = r.1) ∧
    (∀ (cfg : Config) (fs : FS) (d : DocFile) (st : CheckState)
        (ref : String × Nat × String),
      urlScheme ref.1 ≠ "http" → urlScheme ref.1 ≠ "https" →
      check_link cfg fs d st ref
        = { st with issues := st.issues ++ (check_link cfg fs d initState ref).issues }) ∧
    (∀ (cfg : Config) (rp : String) (st : CheckState) (url : String)
        (line : Nat) (ctx : String),
      st.visited_external.contains url = true →
      check_external_link cfg rp st url line ctx = st) := by
  refine ⟨?_, check_link_nonexternal_eq, cel_skip⟩
  intro cfg fs docs hread i hi
  obtain ⟨new, h1, h2⟩ := foldl_check_file_issues cfg fs docs initState
  rw [show (check_site cfg fs docs).issues = initState.issues ++ new from h1] at hi
  simp only [initState, List.nil_append] at hi
  obtain ⟨-, d, hd, himp⟩ := h2 i hi
  obtain ⟨soup, raw, hok⟩ := hread d hd
  obtain ⟨hfp, hurl⟩ := himp soup raw hok
  exact ⟨d, hd, soup, raw, hok, hfp, hurl⟩

theorem c3_issue_traceability_witness :
    ∃ d ∈ [extDoc "a.html", extDoc "b.html"], ∃ soup raw,
      d.content = Except.ok (soup, raw) ∧
      (⟨"a.html", 1, "external", "http://x.example/", "HTTP 404: Not Found",
          "<a href=\"http://x.example/\">x</a>"⟩ : LinkIssue).file_path = d.rel_path ∧
      ∃ r ∈ extract_links soup raw,
        (⟨"a.html", 1, "external", "http://x.example/", "HTTP 404: Not Found",
            "<a href=\"http://x.example/\">x</a>"⟩ : LinkIssue).url = r.1 := by
  have hread : ∀ d ∈ [extDoc "a.html", extDoc "b.html"],
      ∃ soup raw, d.content = Except.ok (soup, raw) := by
    intro d hd
    simp only [List.mem_cons, List.mem_singleton, List.not_mem_nil, or_false] at hd
    rcases hd with rfl | rfl
    · exact ⟨extSoup, "", rfl⟩
    · exact ⟨extSoup, "", rfl⟩
  exact c3_issue_traceability.1 cfg404 fsPages [extDoc "a.html", extDoc "b.html"]
    hread _ (by decide)

/-- C3 counterexample: with external checking enabled and every probe
answering 404, two documents referencing the same broken external URL
yield a single external issue — the second reference is suppressed by the
visited-external set — refuting "each such reference produces its own
issue". -/
theorem c3_counterexample :
    (extract_links extSoup "").map (fun r => r.1) = ["http://x.example/"] ∧
    (check_site cfg404 fsPages [extDoc "a.html", extDoc "b.html"]).issues.length = 1 :=
  ⟨by decide, by decide⟩

/-! ## Error handling (C8) -/

/-- C8: the missing site root is fatal and aborts before any checking
(`run_checker` yields an error and no issue list); with the root present
the full traversal always completes with the issue list; a failing
document contributes exactly one `file` issue, in order, and checking
continues with the remaining documents from an otherwise unchanged state;
a malformed URL — one on which `urlparse` raises, e.g. an unbalanced
square bracket in the authority — degrades to exactly one internal
`Error parsing link` issue; a filesystem error during internal resolution
degrades to exactly one internal issue message; a network failure
(timeout, connection failure or other request error) on a fresh URL
degrades to exactly one external issue; and an unreadable page during
anchor checking degrades to exactly one anchor issue. -/
theorem c8_failure_containment :
    (∀ (cfg : Config) (fs : FS) (docs : List DocFile),
      run_checker false cfg fs docs = .error "Site directory does not exist") ∧
    (∀ (cfg : Config) (fs : FS) (docs : List DocFile),
      run_checker true cfg fs docs = .ok (check_site cfg fs docs).issues) ∧
    (∀ (cfg : Config) (fs : FS) (st : CheckState) (xs ys : List DocFile)
        (rp : String) (dir : List String) (e : String),
      (xs ++ (⟨rp, dir, .error e⟩ : DocFile) :: ys).foldl (check_file cfg fs) st
        = ys.foldl (check_file cfg fs)
            (addIssue (xs.foldl (check_file cfg fs) st)
              ⟨rp, 1, "file", "", "Error reading file: " ++ e, ""⟩)) ∧
    (∀ (cfg : Config) (fs : FS) (d : DocFile) (st : CheckState)
        (ref : String × Nat × String),
      urlparse_raises ref.1 = true →
      check_link cfg fs d st ref
        = addIssue st ⟨d.rel_path, ref.2.1, "internal", ref.1,
            "Error parsing link: Invalid IPv6 URL", ref.2.2⟩) ∧
    (∀ (fs : FS) (dir : List String) (url : String),
      fs.raises (resolveTarget dir url) = true →
      check_internal_link fs dir url
        = some ("Error resolving internal link: OS error")) ∧
    (∀ (cfg : Config) (rp : String) (st : CheckState) (url : String)
        (line : Nat) (ctx : String),
      st.visited_external.contains url = false →
      (cfg.http_head url = ProbeResult.timeout ∨
        cfg.http_head url = ProbeResult.connError ∨
        (∃ dd, cfg.http_head url = ProbeResult.reqError dd)) →
      ∃ i, (check_external_link cfg rp st url line ctx).issues = st.issues ++ [i] ∧
        i.link_type = "external" ∧ i.url = url ∧ i.file_path = rp) ∧
    (∀ (d : DocFile) (st : CheckState) (url : String) (line : Nat)
        (ctx : String) (e : String),
      d.content = .error e →
      check_anchor_link d st url line ctx
        = addIssue st ⟨d.rel_path, line, "anchor", url,
            "Error checking anchor: " ++ e, ctx⟩) := by
  refine ⟨fun _ _ _ => rfl, fun _ _ _ => rfl, ?_, ?_, ?_, ?_, ?_⟩
  · intro cfg fs st xs ys rp dir e
    rw [List.foldl_append, List.foldl_cons]
    rfl
  · intro cfg fs d st ref h
    simp only [check_link]
    rw [if_pos h]
  · intro fs dir url h
    simp [check_internal_link, check_internal_core, h]
  · intro cfg rp st url line ctx hv hout
    have hm : url ∉ st.visited_external := by simpa using hv
    have hne : ¬(st.visited_external.contains url = true) := by simpa using hm
    rcases hout with h | h | ⟨dd, h⟩
    · exact ⟨⟨rp, line, "external", url,
        "Request timeout after " ++ toString cfg.timeout ++ " seconds", ctx⟩,
        by simp [check_external_link, hne, hm, h, addIssue], rfl, rfl, rfl⟩
    · exact ⟨⟨rp, line, "external", url, "Connection error", ctx⟩,
        by simp [check_external_link, hne, hm, h, addIssue], rfl, rfl, rfl⟩
    · exact ⟨⟨rp, line, "external", url, "Request error: " ++ dd, ctx⟩,
        by simp [check_external_link, hne, hm, h, addIssue], rfl, rfl, rfl⟩
  · intro d st url line ctx e h
    simp [check_anchor_link, h]

theorem c8_failure_containment_witness :
    run_checker false cfgOff fsPages [brokenDoc]
      = Except.error "Site directory does not exist" ∧
    check_link cfgOff fsPages brokenDoc initState ("http://[", 1, "c")
      = addIssue initState ⟨"index.html", 1, "internal", "http://[",
          "Error parsing link: Invalid IPv6 URL", "c"⟩ ∧
    check_internal_link fsErr ["site"] "bad"
      = some "Error resolving internal link: OS error" ∧
    (∃ i, (check_external_link cfgTimeout "a.html" initState
          "http://x.example/" 1 "c").issues = initState.issues ++ [i] ∧
        i.link_type = "external" ∧ i.url = "http://x.example/" ∧
        i.file_path = "a.html") ∧
    check_anchor_link ⟨"bad.html", ["site"], .error "boom"⟩ initState "#x" 1 "c"
      = addIssue initState
          ⟨"bad.html", 1, "anchor", "#x", "Error checking anchor: boom", "c"⟩ := by
  refine ⟨c8_failure_containment.1 cfgOff fsPages [brokenDoc], ?_, ?_, ?_, ?_⟩
  · exact c8_failure_containment.2.2.2.1 cfgOff fsPages brokenDoc initState
      ("http://[", 1, "c") (by decide)
  · exact c8_failure_containment.2.2.2.2.1 fsErr ["site"] "bad" (by decide)
  · exact c8_failure_containment.2.2.2.2.2.1 cfgTimeout "a.html" initState
      "http://x.example/" 1 "c" (by decide) (Or.inl rfl)
  · exact c8_failure_containment.2.2.2.2.2.2 ⟨"bad.html", ["site"], .error "boom"⟩
      initState "#x" 1 "c" "boom" rfl

/-! ## Base URL irrelevance (C10) -/

theorem cel_congr (ca cb : Config) (ht : ca.timeout = cb.timeout)
    (hh : ca.http_head = cb.http_head) :
    check_external_link ca = check_external_link cb := by
  funext rp st url line ctx
  simp only [check_external_link, ht, hh]

theorem check_link_congr (ca cb : Config) (he : ca.check_external = cb.check_external)
    (ht : ca.timeout = cb.timeout) (hh : ca.http_head = cb.http_head) (fs : FS) :
    check_link ca fs = check_link cb fs := by
  funext d st ref
  simp only [check_link, he, cel_congr ca cb ht hh]

theorem check_file_congr (ca cb : Config) (he : ca.check_external = cb.check_external)
    (ht : ca.timeout = cb.timeout) (hh : ca.http_head = cb.http_head) (fs : FS) :
    check_file ca fs = check_file cb fs := by
  funext st d
  simp only [check_file, check_link_congr ca cb he ht hh fs]

/-- C10 (amended): the detected base URL is written into the checker state
and read by no resolver: two runs identical except for the `base_url`
value produce identical final states (issues, visited set and probe log
alike).  The presence of the config file itself, however, is part of the
checked file tree, so trees differing in the config file's existence can
differ in internal-link outcomes. -/
theorem c10_base_url_never_read (cfg : Config) (fs : FS) (docs : List DocFile)
    (b1 b2 : String) :
    check_site { cfg with base_url := b1 } fs docs
      = check_site { cfg with base_url := b2 } fs docs := by
  have h := check_file_congr { cfg with base_url := b1 }
    { cfg with base_url := b2 } rfl rfl rfl fs
  simp only [check_site, h]

/-- C10 counterexample: two site trees identical except that one contains
`site/config.toml` (from which a base URL would be detected) and one does
not, with a page referencing `config.toml`: the issue lists differ — the
config file's presence is observable through internal resolution even
though the detected base URL itself is never read. -/
theorem c10_counterexample :
    fsWithConfig.files = fsNoConfig.files ++ [["site", "config.toml"]] ∧
    fsWithConfig.dirs = fsNoConfig.dirs ∧
    fsWithConfig.err_paths = fsNoConfig.err_paths ∧
    (check_site cfgBaseA fsWithConfig [configLinkDoc]).issues = [] ∧
    (check_site cfgBaseB fsNoConfig [configLinkDoc]).issues.length = 1 :=
  ⟨by decide, by decide, by decide, by decide, by decide⟩
